import Mathlib

/-!
Verification development for the confx configuration-binding library.

The Go sources are shallowly embedded: each Go function used by a claim is
translated into an executable Lean definition operating on explicit models of
Go's reflective types (`GoType`, `SliceElem`, …) and dynamic values (`GoVal`).
External collaborators (viper's layered store, `encoding/json`,
`encoding/base64`, the validator engine's field lookup) are modelled at their
documented interfaces; each such model is marked in its doc comment.
-/

namespace Confx

/-- Whitespace predicate of `unicode.IsSpace` restricted to the ASCII range
(the only range exercised anywhere in the package). -/
def goIsSpace (c : Char) : Bool :=
  c == ' ' || c == '\t' || c == '\n' || c == '\x0b' || c == '\x0c' || c == '\r'

/-- Model of Go `strings.Trim`: remove all leading and trailing characters
belonging to `cutset`. -/
def goTrim (s : String) (cutset : String) : String :=
  let cs := cutset.toList
  String.mk (((s.toList.dropWhile (cs.contains ·)).reverse.dropWhile (cs.contains ·)).reverse)

/-- Model of Go `strings.TrimSpace`: remove all leading and trailing
whitespace characters. -/
def goTrimSpace (s : String) : String :=
  String.mk (((s.toList.dropWhile goIsSpace).reverse.dropWhile goIsSpace).reverse)

/-- Fuelled character-list worker for Go `strings.Split` with a non-empty
separator: split at every occurrence of `sep`.  The fuel (always instantiated
with the input length, which bounds the recursion depth) keeps the recursion
structural so that the definition computes by reduction. -/
def goSplitListF (sep : List Char) : Nat → List Char → List (List Char)
  | _, [] => [[]]
  | 0, l => [l]
  | fuel + 1, c :: rest =>
    if sep ≠ [] ∧ sep.isPrefixOf (c :: rest) then
      [] :: goSplitListF sep fuel ((c :: rest).drop sep.length)
    else
      match goSplitListF sep fuel rest with
      | t :: ts => (c :: t) :: ts
      | [] => [[c]]

/-- Character-list worker for Go `strings.Split`. -/
def goSplitList (sep l : List Char) : List (List Char) :=
  goSplitListF sep l.length l

/-- Model of Go `strings.Split` (`sep` assumed non-empty, as in every call
site of the package, where it is `","` or `"="`). An empty input yields a
one-element list containing the empty string, exactly as in Go. -/
def goSplit (s sep : String) : List String :=
  (goSplitList sep.toList s.toList).map String.mk

/-- Character-list worker for Go `strings.SplitN(s, sep, 2)`: split at the
first occurrence of `sep` only. -/
def goSplitN2List (sep : List Char) : List Char → List (List Char)
  | [] => [[]]
  | c :: rest =>
    if sep ≠ [] ∧ sep.isPrefixOf (c :: rest) then
      [[], (c :: rest).drop sep.length]
    else
      match goSplitN2List sep rest with
      | t :: ts => (c :: t) :: ts
      | [] => [[c]]

/-- Model of Go `strings.SplitN(s, sep, 2)`: a list of length 1 when `sep`
does not occur in `s`, else the part before the first occurrence and the
whole remainder after it. -/
def goSplitN2 (s sep : String) : List String :=
  (goSplitN2List sep.toList s.toList).map String.mk

/-- Numeric value of a list of decimal digit characters. -/
def digitsToNat (l : List Char) : Nat :=
  l.foldl (fun acc c => acc * 10 + (c.toNat - '0'.toNat)) 0

/-- A non-empty all-decimal-digit character list. -/
def allDigits (l : List Char) : Bool :=
  !l.isEmpty && l.all (·.isDigit)

/-- Model of Go `strconv.ParseBool`. -/
def goParseBool (s : String) : Except String Bool :=
  if s = "1" ∨ s = "t" ∨ s = "T" ∨ s = "true" ∨ s = "TRUE" ∨ s = "True" then .ok true
  else if s = "0" ∨ s = "f" ∨ s = "F" ∨ s = "false" ∨ s = "FALSE" ∨ s = "False" then .ok false
  else .error ("invalid syntax: " ++ s)

/-- Model of Go `strconv.ParseInt(s, 10, 64)`: optional sign, decimal digits,
64-bit signed range check. -/
def goParseInt64 (s : String) : Except String Int :=
  let signed :=
    match s.toList with
    | '+' :: rest => (false, rest)
    | '-' :: rest => (true, rest)
    | cs => (false, cs)
  if allDigits signed.2 then
    let n := digitsToNat signed.2
    if signed.1 then
      if n ≤ 2 ^ 63 then .ok (-(n : Int)) else .error ("value out of range: " ++ s)
    else
      if n < 2 ^ 63 then .ok (n : Int) else .error ("value out of range: " ++ s)
  else .error ("invalid syntax: " ++ s)

/-- Model of Go `strconv.Atoi` = `ParseInt(s, 10, 0)` on a 64-bit platform. -/
def goAtoi (s : String) : Except String Int :=
  goParseInt64 s

/-- Model of Go `strconv.ParseUint(s, 10, 64)`: decimal digits, no sign
permitted, 64-bit unsigned range check. -/
def goParseUint64 (s : String) : Except String Nat :=
  if allDigits s.toList then
    let n := digitsToNat s.toList
    if n < 2 ^ 64 then .ok n else .error ("value out of range: " ++ s)
  else .error ("invalid syntax: " ++ s)

/-- Model of the plain-decimal fragment of Go `strconv.ParseFloat(s, 64)` as
an exact rational (optional sign, digits, optional fraction; exponents, hex
floats, Inf/NaN and binary rounding are not modelled — no claim evaluates a
parsed float). -/
def goParseFloat (s : String) : Except String Rat :=
  let signed :=
    match s.toList with
    | '+' :: rest => (false, rest)
    | '-' :: rest => (true, rest)
    | cs => (false, cs)
  let ip := signed.2.takeWhile Char.isDigit
  let rest1 := signed.2.dropWhile Char.isDigit
  let fracAndRest : List Char × List Char :=
    match rest1 with
    | '.' :: r => (r.takeWhile Char.isDigit, r.dropWhile Char.isDigit)
    | r => ([], r)
  if (ip.isEmpty && fracAndRest.1.isEmpty) || !fracAndRest.2.isEmpty then
    .error ("invalid syntax: " ++ s)
  else
    let fp := fracAndRest.1
    let mag : Rat := ((digitsToNat ip * 10 ^ fp.length + digitsToNat fp : Nat) : Rat) / ((10 ^ fp.length : Nat) : Rat)
    .ok (if signed.1 then -mag else mag)

/-- Nanoseconds per duration unit, as in Go `time.ParseDuration`'s unit map
(ASCII unit spellings). -/
def durationUnitNs : String → Option Nat
  | "ns" => some 1
  | "us" => some 1000
  | "ms" => some 1000000
  | "s" => some 1000000000
  | "m" => some 60000000000
  | "h" => some 3600000000000
  | _ => none

/-- Fuelled worker for the integer fragment of Go `time.ParseDuration`: a
sequence of decimal-digit runs each followed by a unit, summed in
nanoseconds (a non-digit leading character is a syntax error, as in Go).
Fuel is always instantiated with the input length, which bounds the
recursion depth. -/
def parseDurPartsF : Nat → List Char → Except String Nat
  | _, [] => .ok 0
  | 0, _ => .error "invalid duration"
  | fuel + 1, c :: rest =>
    if c.isDigit then
      match durationUnitNs (String.mk ((rest.dropWhile Char.isDigit).takeWhile (fun x => !x.isDigit))) with
      | none => .error "unknown unit in duration"
      | some mult =>
        match parseDurPartsF fuel ((rest.dropWhile Char.isDigit).dropWhile (fun x => !x.isDigit)) with
        | .ok n => .ok (digitsToNat (c :: rest.takeWhile Char.isDigit) * mult + n)
        | .error e => .error e
    else .error "invalid duration"

/-- Worker for the integer fragment of Go `time.ParseDuration`. -/
def parseDurParts (l : List Char) : Except String Nat :=
  parseDurPartsF l.length l

/-- Model of the integer fragment of Go `time.ParseDuration` (optional sign,
digit runs with units; fractional components and overflow checks are not
modelled — no claim evaluates a parsed duration). Result in nanoseconds. -/
def goParseDuration (s : String) : Except String Int :=
  let signed :=
    match s.toList with
    | '+' :: rest => (false, rest)
    | '-' :: rest => (true, rest)
    | cs => (false, cs)
  if String.mk signed.2 = "0" then .ok 0
  else if signed.2.isEmpty then .error ("invalid duration: " ++ s)
  else
    match parseDurParts signed.2 with
    | .ok n => .ok (if signed.1 then -(n : Int) else (n : Int))
    | .error e => .error e

/-! Reflective type model.  Only the structure the two decode hooks inspect is
represented: the kind of the source and destination types, a slice's element
type (with the duration / `time.Time` / struct / byte special cases), and a
map's key and value kinds. -/

/-- Element type of a Go slice, as the hook distinguishes them.  `ptrE` models
a pointer element type (`unwrapType` unwraps it for the struct-kind check). -/
inductive SliceElem where
  | boolE | float32E | float64E | intE | int8E | int16E | int32E | int64E
  | durationE | stringE | uintE | uint8E | uint16E | uint32E | uint64E
  | structE (name : String)
  | ptrE (inner : SliceElem)
  deriving DecidableEq, Repr

/-- Go type name of a slice element type, used in error messages. -/
def SliceElem.goName : SliceElem → String
  | .boolE => "bool"
  | .float32E => "float32"
  | .float64E => "float64"
  | .intE => "int"
  | .int8E => "int8"
  | .int16E => "int16"
  | .int32E => "int32"
  | .int64E => "int64"
  | .durationE => "time.Duration"
  | .stringE => "string"
  | .uintE => "uint"
  | .uint8E => "uint8"
  | .uint16E => "uint16"
  | .uint32E => "uint32"
  | .uint64E => "uint64"
  | .structE n => n
  | .ptrE e => "*" ++ e.goName

/-- Model of `unwrapType` from confx.go restricted to slice element types:
dereference pointer types until a non-pointer type is reached. -/
def unwrapElem : SliceElem → SliceElem
  | .ptrE e => unwrapElem e
  | e => e

/-- Whether the unwrapped element type has reflect kind Struct (the JSON
branch guard of `StringToSliceHookFunc`; note `time.Duration` is kind Int64
and `structE` is the only struct-kind element constructor here). -/
def elemIsStructKind (e : SliceElem) : Bool :=
  match unwrapElem e with
  | .structE _ => true
  | _ => false

/-- Key kind of a Go map as the map hook inspects it. -/
inductive MapKeyKind where
  | stringKey
  | otherKey (name : String)
  deriving DecidableEq, Repr

/-- Value kind of a Go map as the map hook inspects it. -/
inductive MapValueKind where
  | intM | int64M | stringM
  | otherM (name : String)
  deriving DecidableEq, Repr

/-- The reflective shape of a Go type, as far as the decode hooks look at it:
its kind, plus element/key/value types for slices and maps.  `otherT` stands
for any type of a different kind (bool, int, struct, …). -/
inductive GoType where
  | stringT
  | sliceT (elem : SliceElem)
  | mapT (key : MapKeyKind) (value : MapValueKind)
  | otherT (name : String)
  deriving DecidableEq, Repr

/-- Reflect kind String. -/
def GoType.isStringKind : GoType → Bool
  | .stringT => true
  | _ => false

/-- Reflect kind Slice. -/
def GoType.isSliceKind : GoType → Bool
  | .sliceT _ => true
  | _ => false

/-- Reflect kind Map. -/
def GoType.isMapKind : GoType → Bool
  | .mapT _ _ => true
  | _ => false

/-- A value stored in a string-keyed Go map built by the map hook. -/
inductive MapVal where
  | intV (i : Int)
  | int64V (i : Int)
  | strV (s : String)
  deriving DecidableEq, Repr

/-- Dynamic (interface-typed) Go values flowing through the decode hooks.
`jsonSlice` and `base64Bytes` stand for the results of the external
`encoding/json` and `encoding/base64` decoders, which are modelled opaquely
by the string they were handed (no claim depends on their output). -/
inductive GoVal where
  | str (s : String)
  | boolSlice (l : List Bool)
  | floatSlice (l : List Rat)
  | intSlice (l : List Int)
  | durationSlice (l : List Int)
  | uintSlice (l : List Nat)
  | strSlice (l : List String)
  | jsonSlice (elem : SliceElem) (payload : String)
  | base64Bytes (payload : String)
  | mapVal (entries : List (String × MapVal))
  | intVal (i : Int)
  | boolVal (b : Bool)
  deriving DecidableEq, Repr

/-- Model of `parseSlice` from the source: an empty part list, or a single
part that is whitespace-only, yields the empty list; otherwise every part is
whitespace-trimmed and parsed, the first parse error (wrapped with the
offending literal) aborting. -/
def parseSlice {T : Type} (parts : List String) (parseFunc : String → Except String T) :
    Except String (List T) :=
  if parts = [] ∨ (parts.length = 1 ∧ goTrimSpace (parts.headD "") = "") then
    .ok []
  else
    parts.mapM (fun part =>
      match parseFunc (goTrimSpace part) with
      | .ok v => .ok v
      | .error e => .error ("invalid value " ++ part ++ ": " ++ e))

/-- Coercion body of `StringToSliceHookFunc` once `from` is kind String and
`to` is kind Slice: struct-kind elements decode the whole string as JSON
(external, modelled opaquely); otherwise surrounding bracket characters are
trimmed and either the string base64-decodes as a whole (byte slices,
external, modelled opaquely) or it is split on the separator and parsed
per element type via `parseSlice`.  `durationE` sits inside the Go
`case reflect.Int, reflect.Int32, reflect.Int64` group, distinguished by the
`elemType == typeDuration` comparison. -/
def stringToSliceBody (separator : String) (elem : SliceElem) (s : String) :
    Except String GoVal :=
  if elemIsStructKind elem then
    .ok (.jsonSlice elem s)
  else
    let str := goTrim s "[]"
    if elem = .uint8E then
      .ok (.base64Bytes str)
    else
      let parts := goSplit str separator
      match elem with
      | .boolE => (parseSlice parts goParseBool).map GoVal.boolSlice
      | .float32E | .float64E => (parseSlice parts goParseFloat).map GoVal.floatSlice
      | .durationE => (parseSlice parts goParseDuration).map GoVal.durationSlice
      | .intE | .int32E | .int64E => (parseSlice parts goParseInt64).map GoVal.intSlice
      | .stringE => .ok (.strSlice parts)
      | .uintE | .uint32E | .uint64E => (parseSlice parts goParseUint64).map GoVal.uintSlice
      | e => .error ("unsupported slice element type " ++ e.goName)

/-- Model of `StringToSliceHookFunc`: the returned hook coerces only when the
source type is kind String and the destination type is kind Slice, and
returns the data unchanged otherwise.  The Go type assertion `data.(string)`
(which mapstructure's contract makes infallible) is modelled as an error. -/
def StringToSliceHookFunc (separator : String) (fromTy toTy : GoType) (data : GoVal) :
    Except String GoVal :=
  match toTy with
  | .sliceT elem =>
    if fromTy.isStringKind then
      match data with
      | .str s => stringToSliceBody separator elem s
      | _ => .error "type assertion: data is not a string"
    else .ok data
  | _ => .ok data

/-- One iteration of the pair loop in `StringToMapHookFunc`: split the pair
at the first occurrence of the key/value separator; a pair without the
separator is an error naming the pair; the value is parsed per the declared
map value kind (whitespace-trimmed for the numeric kinds, verbatim for
string), and the key is always taken verbatim. -/
def parsePair (pairSeparator : String) (valueKind : MapValueKind) (pair : String) :
    Except String (String × MapVal) :=
  match goSplitN2 pair pairSeparator with
  | [key, valueStr] =>
    match valueKind with
    | .intM =>
      match goAtoi (goTrimSpace valueStr) with
      | .ok i => .ok (key, .intV i)
      | .error e => .error ("invalid value " ++ valueStr ++ " for key " ++ key ++ ": " ++ e)
    | .int64M =>
      match goParseInt64 (goTrimSpace valueStr) with
      | .ok i => .ok (key, .int64V i)
      | .error e => .error ("invalid value " ++ valueStr ++ " for key " ++ key ++ ": " ++ e)
    | .stringM => .ok (key, .strV valueStr)
    | .otherM n => .error ("unsupported map value type " ++ n)
  | _ => .error ("invalid key-value pair " ++ pair)

/-- Model of `reflect.Value.SetMapIndex` on the association-list map model:
overwrite the entry of an existing key in place, else append. -/
def mapSet (entries : List (String × MapVal)) (key : String) (value : MapVal) :
    List (String × MapVal) :=
  match entries with
  | [] => [(key, value)]
  | (k, v) :: rest =>
    if k = key then (k, value) :: rest else (k, v) :: mapSet rest key value

/-- Model of `StringToMapHookFunc`: the returned hook coerces only when the
source type is kind String and the destination type is kind Map.  The
bracket-trimmed input, when empty, yields the empty map before any key/value
kind check (as in the source, where `MakeMap` is returned before the key-kind
test); otherwise a non-string key kind is an error, and each
pair-separator-delimited pair is processed by `parsePair` into the map. -/
def StringToMapHookFunc (separator pairSeparator : String) (fromTy toTy : GoType)
    (data : GoVal) : Except String GoVal :=
  match toTy with
  | .mapT keyKind valueKind =>
    if fromTy.isStringKind then
      match data with
      | .str s =>
        let str := goTrim s "[]"
        if str = "" then
          .ok (.mapVal [])
        else
          match keyKind with
          | .otherKey n => .error ("only string keys are supported for map type, got " ++ n)
          | .stringKey =>
            ((goSplit str separator).foldlM
                (fun acc pair => (parsePair pairSeparator valueKind pair).map
                  (fun kv => mapSet acc kv.1 kv.2)) []).map GoVal.mapVal
      | _ => .error "type assertion: data is not a string"
    else .ok data
  | _ => .ok data

/-! Conditional-validation extension (validator.go). -/

/-- The apostrophe character, written via its code point. -/
def quoteChar : Char := Char.ofNat 39

/-- Fuelled worker modelling the `reSplitParams` regex scan (pattern: a
single-quoted run, or else a maximal run of non-whitespace characters),
producing the successive leftmost matches.  A quote with no later closing
quote falls back to the non-whitespace-run alternative, as under
leftmost-match semantics.  Fuel is always instantiated with the input
length, which bounds the recursion depth. -/
def scanParamsF : Nat → List Char → List (List Char)
  | _, [] => []
  | 0, _ => []
  | fuel + 1, c :: rest =>
    if goIsSpace c then scanParamsF fuel rest
    else if c = quoteChar ∧ rest.contains quoteChar then
      (quoteChar :: (rest.takeWhile (fun x => x ≠ quoteChar) ++ [quoteChar])) ::
        scanParamsF fuel ((rest.dropWhile (fun x => x ≠ quoteChar)).drop 1)
    else
      (c :: rest.takeWhile (fun x => !goIsSpace x)) ::
        scanParamsF fuel (rest.dropWhile (fun x => !goIsSpace x))

/-- The `reSplitParams` scan. -/
def scanParams (l : List Char) : List (List Char) :=
  scanParamsF l.length l

/-- Model of `parseOneOfParam2`: regex-scan the parameter string into tokens,
then delete every single-quote character from each token (Go
`strings.ReplaceAll(v, "'", "")`). -/
def parseOneOfParam2 (s : String) : List String :=
  (scanParams s.toList).map (fun t => String.mk (t.filter (fun x => x ≠ quoteChar)))

/-- A sibling field's value as the validator's reflective lookup classifies
it: the kinds distinguished by the switch of `requireCheckFieldValue`.
Float values are carried as exact rationals (the comparison against the
parsed expected value is modelled exactly; no claim evaluates floats). -/
inductive GoValue where
  | intV (i : Int)
  | uintV (n : Nat)
  | floatV (q : Rat)
  | boolV (b : Bool)
  | collV (length : Nat)
  | ptrV (v : Option GoValue)
  | strV (s : String)
  deriving Repr

/-- Model of `cast.ToInt64` on strings (decimal fragment): parse failure
yields 0, as the cast library swallows errors. -/
def castToInt64 (s : String) : Int :=
  match goParseInt64 s with
  | .ok i => i
  | .error _ => 0

/-- Model of `cast.ToUint64` on strings (decimal fragment): 0 on failure. -/
def castToUint64 (s : String) : Nat :=
  match goParseUint64 s with
  | .ok n => n
  | .error _ => 0

/-- Model of `cast.ToFloat64` / `cast.ToFloat32` on strings (decimal
fragment, exact rational): 0 on failure. -/
def castToRat (s : String) : Rat :=
  match goParseFloat s with
  | .ok q => q
  | .error _ => 0

/-- Kind switch of `requireCheckFieldValue` on a resolved sibling value:
numeric kinds compare by parsed numeric equality, slice/map/array kinds by
length, bool against the literal "true", a nil pointer against the literal
"nil" and a non-nil pointer by recursing on the pointee (in Go the re-invoked
lookup dereferences the pointer), anything else as a string. -/
def checkFieldValue : GoValue → String → Bool
  | .intV i, value => i == castToInt64 value
  | .uintV n, value => n == castToUint64 value
  | .floatV q, value => q == castToRat value
  | .collV len, value => (len : Int) == castToInt64 value
  | .boolV b, value => b == (value == "true")
  | .ptrV none, value => value == "nil"
  | .ptrV (some v), value => checkFieldValue v value
  | .strV s, value => s == value

/-- Model of `requireCheckFieldValue`: the external
`GetStructFieldOKAdvanced2` lookup of the named sibling on the parent
structure is modelled as a partial map from names to values; an unresolved
name yields `defaultNotFoundValue`.  A found value is compared per its kind
by `checkFieldValue`. -/
def requireCheckFieldValue (parent : String → Option GoValue) (param : String)
    (value : String) (defaultNotFoundValue : Bool) : Bool :=
  match parent param with
  | none => defaultNotFoundValue
  | some field => checkFieldValue field value

/-- The fixed tag of the conditional skip rule. -/
def skipNestedUnlessTag : String := "skip_nested_unless"

/-- Outcome of running a validation rule implementation: a boolean verdict,
or an immediately raised configuration error (a Go panic). -/
inductive RuleOutcome where
  | panicked (msg : String)
  | verdict (b : Bool)
  deriving DecidableEq, Repr

/-- The loop of `skipNestedUnlessImpl` over the flattened parameter list:
conjunction of `requireCheckFieldValue` over consecutive (sibling name,
expected value) pairs, with `defaultNotFoundValue = false`. -/
def checkParamPairs (parent : String → Option GoValue) : List String → Bool
  | name :: value :: rest =>
    requireCheckFieldValue parent name value false && checkParamPairs parent rest
  | _ => true

/-- The flattened parameter list regrouped into (sibling name, expected
value) pairs (an unmatched trailing token, impossible on even lengths, is
dropped). -/
def toPairs : List String → List (String × String)
  | name :: value :: rest => (name, value) :: toPairs rest
  | _ => []

/-- Model of `skipNestedUnlessImpl`: tokenize the tag parameter; an odd token
count panics with a message naming the validated field; otherwise the rule
succeeds exactly when every (sibling name, expected value) pair matches on
the parent structure. -/
def skipNestedUnlessImpl (parent : String → Option GoValue) (fieldName : String)
    (param : String) : RuleOutcome :=
  let params := parseOneOfParam2 param
  if params.length % 2 ≠ 0 then
    .panicked ("Bad param number for skip_nested_unless " ++ fieldName)
  else
    .verdict (checkParamPairs parent params)

/-- A single field failure inside the aggregate
`validator.ValidationErrors`. -/
structure FieldError where
  field : String
  tag : String
  deriving DecidableEq, Repr

/-- A non-nil Go error as `skipNestedUnlessWrapper` classifies it via
`errors.As`: the aggregate per-field list, or any other error. -/
inductive GoError where
  | validationErrors (errs : List FieldError)
  | other (msg : String)
  deriving DecidableEq, Repr

/-- Model of `skipNestedUnlessWrapper`: run the wrapped validation; nil stays
nil; an aggregate per-field list keeps only the failures whose rule tag is
not the conditional rule, becoming nil when nothing else failed; a
non-aggregate error passes through unchanged. -/
def skipNestedUnlessWrapper {α : Type} (next : α → Option GoError) (v : α) :
    Option GoError :=
  match next v with
  | none => none
  | some (.validationErrors verr) =>
    let filtered := verr.filter (fun e => e.tag ≠ skipNestedUnlessTag)
    if filtered = [] then none else some (.validationErrors filtered)
  | some e => some e

/-! Loader orchestration (confx.go, `Initialize`'s returned closure). -/

/-- Modelled from the spec: the four layered sources the external store
(viper) holds for one leaf after `Initialize`'s bindings — the explicitly
parsed flag value (present only when the flag was set on the command line),
the bound environment value, the merged configuration-file value, and the
original struct default that seeded the flag's default.  The store itself is
an out-of-scope collaborator; only its precedence contract (spec section
4.3) is modelled. -/
structure LeafSources (V : Type) where
  structDefault : V
  fileValue : Option V
  envValue : Option V
  flagValue : Option V
  deriving DecidableEq, Repr

/-- Modelled from the spec: the external store's per-leaf resolution,
highest precedence first — explicitly parsed flag value, bound environment
value, merged file value, struct default. -/
def resolveLeaf {V : Type} (s : LeafSources V) : V :=
  match s.flagValue with
  | some v => v
  | none =>
    match s.envValue with
    | some v => v
    | none =>
      match s.fileValue with
      | some v => v
      | none => s.structDefault

/-- State of the one-shot binding gate of the loader closure (`sync.Once`
plus the captured `onceErr`).  `executions` counts how many times the
flag-parse-and-binding-plan step has actually run; it is instrumentation
used to state the once-only property. -/
structure OnceState where
  done : Bool
  onceErr : Option String
  executions : Nat
  deriving DecidableEq, Repr

/-- The gate as `Initialize` creates it: step not yet run, no recorded
error. -/
def initialOnceState : OnceState :=
  { done := false, onceErr := none, executions := 0 }

/-- One pass through `once.Do`: the first invocation runs the
flag-parse-then-binding-plan step, whose (deterministic) outcome is
`stepErr`, and records its error; every later invocation skips the body. -/
def onceDo (stepErr : Option String) (s : OnceState) : OnceState :=
  if s.done then s
  else { done := true, onceErr := stepErr, executions := s.executions + 1 }

/-- Everything the loader body observes from its collaborators on one
invocation: the file-read outcome per path, the unmarshal outcome, the
validation outcome, and the value of the reserved config-path flag. -/
structure LoaderEnv (T : Type) where
  readInConfig : String → Option String
  unmarshal : Except String T
  validate : T → Option String
  flagConfig : String

/-- Result of one invocation of the loader closure after the one-shot gate
has run: replay a recorded gate error with the zero value; otherwise resolve
the effective path (argument, else the reserved flag), read the file when a
path is present, unmarshal the merged store, validate — every failure
returning the zero value together with the error, success returning the
populated configuration. -/
def loaderBody {T : Type} (zero : T) (env : LoaderEnv T) (confPath : String)
    (onceErr : Option String) : T × Option String :=
  match onceErr with
  | some e => (zero, some e)
  | none =>
    let path := if confPath = "" then env.flagConfig else confPath
    match (if path ≠ "" then env.readInConfig path else none) with
    | some e => (zero, some ("failed to read config " ++ path ++ ": " ++ e))
    | none =>
      match env.unmarshal with
      | .error e => (zero, some ("failed to unmarshal config: " ++ e))
      | .ok conf =>
        match env.validate conf with
        | some e => (zero, some ("validation failed for config: " ++ e))
        | none => (conf, none)

/-- Model of one invocation of the loader closure returned by `Initialize`:
run the one-shot gate, then compute the result from the recorded gate error
and the collaborators. -/
def loaderInvoke {T : Type} (zero : T) (stepErr : Option String) (env : LoaderEnv T)
    (confPath : String) (s : OnceState) : (T × Option String) × OnceState :=
  let s1 := onceDo stepErr s
  (loaderBody zero env confPath s1.onceErr, s1)

/-- Repeated invocation of one loader with a list of config paths, threading
the one-shot gate state; results are returned in call order. -/
def loaderRun {T : Type} (zero : T) (stepErr : Option String) (env : LoaderEnv T) :
    List String → OnceState → List (T × Option String) × OnceState
  | [], s => ([], s)
  | p :: ps, s =>
    let r := loaderInvoke zero stepErr env p s
    let rest := loaderRun zero stepErr env ps r.2
    (r.1 :: rest.1, rest.2)

/-! Schema walker (confx.go, `initializeRecursive`). -/

mutual
/-- The reflective type of a struct field as the schema walker classifies
it.  `structT` carries the nested field list; pointer layers are explicit
(stripped by the walk as `unwrapOrNew`/`unwrapType` do); `otherT` stands for
the unsupported kinds (chan, func, complex, interface, …). -/
inductive FieldTy where
  | boolT
  | float32T
  | float64T
  | intT
  | int8T
  | int16T
  | int32T
  | int64T
  | durationT
  | stringT
  | uintT
  | uint8T
  | uint16T
  | uint32T
  | uint64T
  | timeT
  | sliceT (elem : SliceElem)
  | mapT (key : MapKeyKind) (value : MapValueKind)
  | structT (fields : FieldList)
  | ptrT (inner : FieldTy)
  | otherT (name : String)

/-- A struct's field list: per field its name, primary-tag value, usage-tag
value and type (a dedicated list keeps the mutual recursion structural; tag
values are those of the configured tag names). -/
inductive FieldList where
  | nil
  | cons (name : String) (tag : Option String) (usageTag : Option String)
      (ty : FieldTy) (rest : FieldList)
end

/-- Concatenation of field lists. -/
def FieldList.append : FieldList → FieldList → FieldList
  | .nil, l => l
  | .cons n t u ty r, l => .cons n t u ty (r.append l)

/-- Model of `unwrapType`/`unwrapOrNew` on the type model: strip pointer
layers. -/
def unwrapFieldTy : FieldTy → FieldTy
  | .ptrT t => unwrapFieldTy t
  | t => t

/-- Schematic Go type name for error messages (named types are abbreviated;
no claim inspects these messages beyond error-ness). -/
def FieldTy.goTypeName : FieldTy → String
  | .boolT => "bool"
  | .float32T => "float32"
  | .float64T => "float64"
  | .intT => "int"
  | .int8T => "int8"
  | .int16T => "int16"
  | .int32T => "int32"
  | .int64T => "int64"
  | .durationT => "time.Duration"
  | .stringT => "string"
  | .uintT => "uint"
  | .uint8T => "uint8"
  | .uint16T => "uint16"
  | .uint32T => "uint32"
  | .uint64T => "uint64"
  | .timeT => "time.Time"
  | .sliceT e => "[]" ++ e.goName
  | .mapT _ _ => "map"
  | .structT _ => "struct"
  | .ptrT t => "*" ++ t.goTypeName
  | .otherT n => n

/-- Model of `ast.IsExported`: the field name starts with an upper-case
letter. -/
def isExported (name : String) : Bool :=
  match name.toList with
  | c :: _ => c.isUpper
  | [] => false

/-- Word scanner modelling `lo.Words` on identifiers and dotted paths: words
are digit runs, lower-case runs optionally led by one upper-case letter, and
upper-case acronym runs whose final letter, when followed by a lower-case
letter, is held back to start the next word; any other character separates
words. -/
def splitWordsAuxF : Nat → List Char → List (List Char)
  | _, [] => []
  | 0, _ => []
  | fuel + 1, c :: rest =>
    if c.isDigit then
      (c :: rest.takeWhile Char.isDigit) :: splitWordsAuxF fuel (rest.dropWhile Char.isDigit)
    else if c.isLower then
      (c :: rest.takeWhile Char.isLower) :: splitWordsAuxF fuel (rest.dropWhile Char.isLower)
    else if c.isUpper then
      if (rest.headD ' ').isLower then
        (c :: rest.takeWhile Char.isLower) :: splitWordsAuxF fuel (rest.dropWhile Char.isLower)
      else if rest.takeWhile Char.isUpper ≠ [] ∧
          ((rest.dropWhile Char.isUpper).headD ' ').isLower then
        (c :: (rest.takeWhile Char.isUpper).dropLast) ::
          splitWordsAuxF fuel
            (((rest.takeWhile Char.isUpper).getLastD c) :: rest.dropWhile Char.isUpper)
      else
        (c :: rest.takeWhile Char.isUpper) :: splitWordsAuxF fuel (rest.dropWhile Char.isUpper)
    else
      splitWordsAuxF fuel rest

/-- The word scanner (fuel instantiated with the input length, which bounds
the recursion depth). -/
def splitWordsAux (l : List Char) : List (List Char) :=
  splitWordsAuxF l.length l

/-- Model of `lo.KebabCase`: split into words, lower-case each, join with
dashes. -/
def kebabCase (s : String) : String :=
  String.intercalate "-" ((splitWordsAux s.toList).map (fun w => String.mk (w.map Char.toLower)))

/-- Model of `reKebabCaseFixDigital.ReplaceAllString(flagKey, "${1}")`:
delete every dash immediately followed by a digit. -/
def fixDigital : List Char → List Char
  | [] => []
  | '-' :: c :: rest =>
    if c.isDigit then c :: fixDigital rest else '-' :: fixDigital (c :: rest)
  | c :: rest => c :: fixDigital rest

/-- The flag identifier derived from a store key:
`reKebabCaseFixDigital.ReplaceAllString(lo.KebabCase(viperKey), "${1}")`. -/
def flagKeyOf (viperKey : String) : String :=
  String.mk (fixDigital (kebabCase viperKey).toList)

/-- Model of `opts.envPrefix + envReplacer.Replace(strings.ToUpper(flagKey))`
(`envReplacer` sends `.` and `-` to `_`). -/
def envKeyOf (envPrefix flagKey : String) : String :=
  envPrefix ++ String.mk ((flagKey.toList.map Char.toUpper).map
    (fun c => if c = '.' ∨ c = '-' then '_' else c))

/-- The four derived identifiers handed to the optional field hook (Go type
`Field` in option.go). -/
structure Field where
  ViperKey : String
  FlagKey : String
  EnvKey : String
  Usage : String
  deriving DecidableEq, Repr

/-- The walker-relevant initialization options: environment prefix and the
optional field rewrite hook (tag names are pre-resolved into the field
model). -/
structure InitOptions where
  envPrefix : String
  fieldHook : Option (Field → Except String Field)

/-- One deferred operation of the binding plan: bind the registered flag, or
bind the environment identifier, into the store under the leaf's key (the
two closures appended per leaf by `initializeRecursive`). -/
inductive Binding where
  | bindFlag (viperKey flagKey : String)
  | bindEnv (viperKey envKey : String)
  deriving DecidableEq, Repr

/-- Success condition of `flagSetSlice`: the slice element kinds it can
register (struct elements register as a JSON string flag, whose external
`json.Marshal` is modelled as succeeding); the rest fail registration. -/
def flagSetSliceOk (flagKey : String) (elem : SliceElem) : Except String Unit :=
  match elem with
  | .boolE | .float32E | .float64E | .intE | .int32E | .int64E | .durationE
  | .stringE | .uintE | .uint8E | .uint32E | .uint64E | .structE _ => .ok ()
  | e => .error ("flag key " ++ flagKey ++ ": unsupported slice element type: " ++ e.goName)

/-- Success condition of `flagSetMap`: string keys only, int / int64 /
string values only. -/
def flagSetMapOk (flagKey : String) (key : MapKeyKind) (value : MapValueKind) :
    Except String Unit :=
  match key with
  | .otherKey n =>
    .error ("flag key " ++ flagKey ++ ": only string keys are supported for map type, but got " ++ n)
  | .stringKey =>
    match value with
    | .intM | .int64M | .stringM => .ok ()
    | .otherM n => .error ("flag key " ++ flagKey ++ ": unsupported map value type " ++ n)

/-- Apply the optional field rewrite hook; a hook error aborts the walk. -/
def applyHook (opts : InitOptions) (f : Field) : Except String Field :=
  match opts.fieldHook with
  | none => .ok f
  | some hook => hook f

mutual
/-- Model of `initializeRecursive`'s per-field body: strip pointer layers;
skip unexported fields and fields whose trimmed tag is `-`; a `,squash` tag
flattens a struct field under the parent's own prefix (a non-struct or
`time.Time` target is a fatal error); otherwise derive the store key, flag
identifier, environment identifier and usage text, let the optional hook
rewrite them, then register a leaf — appending its two bindings — or
recurse into a plain nested struct under the extended (post-hook) prefix.
(Flag default values, which only seed the registry, are not modelled.) -/
def walkField (opts : InitOptions) (name : String) (tag0 : Option String)
    (usageTag : Option String) (ty : FieldTy) (parentKey : String) :
    Except String (List Binding) :=
  match ty with
  | .ptrT inner => walkField opts name tag0 usageTag inner parentKey
  | fieldType =>
    if !isExported name then .ok []
    else
      let tag1 := goTrimSpace (tag0.getD "")
      if tag1 = "-" then .ok []
      else
        let tag := if tag1 = "" then name else tag1
        if tag = ",squash" then
          match fieldType with
          | .structT fields => walkFields opts fields parentKey
          | t => .error ("unsupported squash type: " ++ t.goTypeName)
        else
          let viperKey := if parentKey = "" then tag else parentKey ++ "." ++ tag
          let flagKey := flagKeyOf viperKey
          let envKey := envKeyOf opts.envPrefix flagKey
          let usage0 := goTrimSpace (usageTag.getD "")
          let usage := if usage0 = "" then viperKey else usage0
          match applyHook opts ⟨viperKey, flagKey, envKey, usage⟩ with
          | .error e => .error e
          | .ok f =>
            match fieldType with
            | .structT fields => walkFields opts fields f.ViperKey
            | .sliceT elem =>
              match flagSetSliceOk f.FlagKey elem with
              | .error e => .error e
              | .ok _ => .ok [.bindFlag f.ViperKey f.FlagKey, .bindEnv f.ViperKey f.EnvKey]
            | .mapT key value =>
              match flagSetMapOk f.FlagKey key value with
              | .error e => .error e
              | .ok _ => .ok [.bindFlag f.ViperKey f.FlagKey, .bindEnv f.ViperKey f.EnvKey]
            | .otherT n =>
              .error ("unsupported field type " ++ n ++ " for key " ++ f.ViperKey)
            | .ptrT _ => .error "unreachable: pointer layers already stripped"
            | _ => .ok [.bindFlag f.ViperKey f.FlagKey, .bindEnv f.ViperKey f.EnvKey]

/-- Model of the field loop of `initializeRecursive`: process fields in
order, concatenating their contributed plan entries; the first error aborts
the walk entirely. -/
def walkFields (opts : InitOptions) (fields : FieldList) (parentKey : String) :
    Except String (List Binding) :=
  match fields with
  | .nil => .ok []
  | .cons name tag usageTag ty rest =>
    match walkField opts name tag usageTag ty parentKey with
    | .error e => .error e
    | .ok bs =>
      match walkFields opts rest parentKey with
      | .error e => .error e
      | .ok bs2 => .ok (bs ++ bs2)
end

/-- Model of `initializeRecursive`'s entry: dereference pointer layers
(`unwrapOrNew`), require a struct, and walk its fields under the given
prefix. -/
def initializeRecursive (opts : InitOptions) (ty : FieldTy) (parentKey : String) :
    Except String (List Binding) :=
  match unwrapFieldTy ty with
  | .structT fields => walkFields opts fields parentKey
  | t => .error ("unsupported type " ++ t.goTypeName)

/-- Model of the schema-walk phase of `Initialize`: walk the cloned
default's type from the empty prefix into the binding plan; an error aborts
initialization and no loader is returned. -/
def InitializeBindings (opts : InitOptions) (ty : FieldTy) : Except String (List Binding) :=
  initializeRecursive opts ty ""

/-- The slice element kinds whose coercion goes through `parseSlice` (every
supported scalar kind except `string`, whose split parts are returned
verbatim, and except the byte and struct special cases). -/
def parseSliceElemTypes : List SliceElem :=
  [.boolE, .float32E, .float64E, .intE, .int32E, .int64E, .durationE,
   .uintE, .uint32E, .uint64E]

/-- The empty coerced slice value per element kind (the `[]T{}` the hook
returns for empty input). -/
def emptySliceVal : SliceElem → GoVal
  | .boolE => .boolSlice []
  | .float32E | .float64E => .floatSlice []
  | .durationE => .durationSlice []
  | .intE | .int32E | .int64E => .intSlice []
  | .uintE | .uint32E | .uint64E => .uintSlice []
  | _ => .strSlice []

/-- Whether a field type is a plain struct (`reflect.Kind` Struct excluding
the `time.Time` special case, which is its own constructor here). -/
def isStructTy : FieldTy → Bool
  | .structT _ => true
  | _ => false

/-- Whether a field type is a pointer type. -/
def isPtrTy : FieldTy → Bool
  | .ptrT _ => true
  | _ => false

/-- The options `Initialize` starts from when the caller supplies none: no
environment prefix, no field hook. -/
def defaultInitOptions : InitOptions :=
  { envPrefix := "", fieldHook := none }

/-- A loader environment over `Int` whose collaborators all succeed, used to
exercise the loader model at concrete inputs. -/
def trivialLoaderEnv : LoaderEnv Int :=
  { readInConfig := fun _ => none
    unmarshal := .ok 42
    validate := fun _ => none
    flagConfig := "" }

/-- A loader environment over `Int` whose unmarshal step fails, used to
exercise the loader's error paths at concrete inputs. -/
def failingUnmarshalEnv : LoaderEnv Int :=
  { readInConfig := fun _ => none
    unmarshal := .error "boom"
    validate := fun _ => none
    flagConfig := "" }

/-! General helper lemmas about the string model. -/

theorem mk_toList (s : String) : String.mk s.toList = s := rfl

theorem toList_append (s t : String) : (s ++ t).toList = s.toList ++ t.toList := rfl

theorem dropWhile_eq_self_of_none {α : Type} (p : α → Bool) (l : List α)
    (h : ∀ x ∈ l, p x = false) : l.dropWhile p = l := by
  cases l with
  | nil => simp
  | cons a l =>
    exact List.dropWhile_cons_of_neg (by simp [h a (List.mem_cons_self a l)])

theorem dropWhile_eq_nil_of_all {α : Type} (p : α → Bool) (l : List α)
    (h : ∀ x ∈ l, p x = true) : l.dropWhile p = [] := by
  induction l with
  | nil => simp
  | cons a l ih =>
    rw [List.dropWhile_cons_of_pos (h a (List.mem_cons_self a l))]
    exact ih (fun x hx => h x (List.mem_cons_of_mem a hx))

theorem goTrim_eq_self (s : String) (cutset : String)
    (h : ∀ c ∈ s.toList, (cutset.toList.contains c) = false) : goTrim s cutset = s := by
  have h1 : s.toList.dropWhile (fun x => cutset.toList.contains x) = s.toList :=
    dropWhile_eq_self_of_none _ _ h
  have h2 : s.toList.reverse.dropWhile (fun x => cutset.toList.contains x) = s.toList.reverse :=
    dropWhile_eq_self_of_none _ _ (fun c hc => h c (List.mem_reverse.mp hc))
  show String.mk (((s.toList.dropWhile (fun x => cutset.toList.contains x)).reverse.dropWhile
      (fun x => cutset.toList.contains x)).reverse) = s
  rw [h1, h2, List.reverse_reverse]
  exact mk_toList s

theorem goTrimSpace_eq_empty (s : String) (h : ∀ c ∈ s.toList, goIsSpace c = true) :
    goTrimSpace s = "" := by
  unfold goTrimSpace
  rw [dropWhile_eq_nil_of_all _ _ h]
  rfl

theorem goIsSpace_not_bracket (c : Char) (h : goIsSpace c = true) :
    ((("[]" : String).toList).contains c) = false := by
  simp only [goIsSpace, Bool.or_eq_true, beq_iff_eq] at h
  rcases h with ((((rfl | rfl) | rfl) | rfl) | rfl) | rfl <;> decide

theorem goIsSpace_ne_comma (c : Char) (h : goIsSpace c = true) : c ≠ ',' := by
  simp only [goIsSpace, Bool.or_eq_true, beq_iff_eq] at h
  rcases h with ((((rfl | rfl) | rfl) | rfl) | rfl) | rfl <;> decide

theorem goSplitListF_of_not_mem (a : Char) (sep : List Char) :
    ∀ (fuel : Nat) (l : List Char), l.length ≤ fuel → a ∉ l →
      goSplitListF (a :: sep) fuel l = [l] := by
  intro fuel
  induction fuel with
  | zero =>
    intro l hl _
    cases l with
    | nil => rfl
    | cons c rest => simp at hl
  | succ fuel ih =>
    intro l hl h
    cases l with
    | nil => rfl
    | cons c rest =>
      have hca : ¬(a :: sep).isPrefixOf (c :: rest) = true := by
        have : ¬a = c := fun he => h (he ▸ List.mem_cons_self c rest)
        simp [List.isPrefixOf, this, beq_iff_eq]
      rw [goSplitListF]
      rw [if_neg (fun hand => hca hand.2)]
      rw [ih rest (by simpa using Nat.le_of_succ_le_succ (by simpa using hl))
        (fun hm => h (List.mem_cons_of_mem c hm))]

theorem goSplitList_of_not_mem (a : Char) (sep : List Char) (l : List Char)
    (h : a ∉ l) : goSplitList (a :: sep) l = [l] :=
  goSplitListF_of_not_mem a sep l.length l (Nat.le_refl _) h

theorem goSplit_of_not_mem (s : String) (a : Char) (sep' : String) (hs : sep'.toList = [a])
    (h : a ∉ s.toList) : goSplit s sep' = [s] := by
  unfold goSplit
  rw [hs, goSplitList_of_not_mem a [] s.toList h]
  simp [mk_toList]

theorem goTrim_bracket_wrap (s : String) :
    goTrim ("[" ++ s ++ "]") "[]" = goTrim s "[]" := by
  show String.mk (((("[" ++ s ++ "]").toList.dropWhile
        (fun x => ("[]" : String).toList.contains x)).reverse.dropWhile
        (fun x => ("[]" : String).toList.contains x)).reverse) =
      String.mk (((s.toList.dropWhile
        (fun x => ("[]" : String).toList.contains x)).reverse.dropWhile
        (fun x => ("[]" : String).toList.contains x)).reverse)
  have hl : ("[" ++ s ++ "]").toList = '[' :: (s.toList ++ [']']) := by
    rw [toList_append, toList_append]
    rfl
  rw [hl]
  rw [List.dropWhile_cons_of_pos (by decide)]
  rw [List.dropWhile_append]
  by_cases hx : (s.toList.dropWhile (fun x => ("[]" : String).toList.contains x)).isEmpty
  · rw [if_pos hx]
    have h0 : s.toList.dropWhile (fun x => ("[]" : String).toList.contains x) = [] := by
      simpa [List.isEmpty_iff] using hx
    rw [h0]
    rfl
  · rw [if_neg hx]
    rw [List.reverse_append]
    show String.mk ((List.dropWhile _ ((']' :: List.nil) ++ _)).reverse) = _
    rw [List.singleton_append, List.dropWhile_cons_of_pos (by decide)]

theorem parseSlice_whitespace_single {T : Type} (f : String → Except String T)
    (s : String) (h : goTrimSpace s = "") : parseSlice [s] f = .ok ([] : List T) := by
  unfold parseSlice
  rw [if_pos]
  right
  exact ⟨by simp, by simpa using h⟩

theorem all_space_facts (s : String) (hs : s.toList.all goIsSpace = true) :
    goTrim s "[]" = s ∧ goSplit s "," = [s] ∧ goTrimSpace s = "" := by
  have hall : ∀ c ∈ s.toList, goIsSpace c = true := by
    simpa [List.all_eq_true] using hs
  refine ⟨goTrim_eq_self s "[]" (fun c hc => goIsSpace_not_bracket c (hall c hc)),
    goSplit_of_not_mem s ',' "," rfl (fun hm => goIsSpace_ne_comma ',' (hall ',' hm) rfl),
    goTrimSpace_eq_empty s hall⟩

/-- C1 counterexample: coercing the empty string into a string slice yields
the one-element slice containing the empty string — not the empty slice the
claim promises for every supported scalar element type (the repository's own
test expects this behaviour: input `" "` decodes to a one-element string
slice). -/
theorem stringToSlice_stringElem_counterexample :
    StringToSliceHookFunc "," GoType.stringT (GoType.sliceT SliceElem.stringE)
        (GoVal.str "") = Except.ok (GoVal.strSlice [""]) ∧
      Except.ok (GoVal.strSlice [""]) ≠ (Except.ok (GoVal.strSlice []) : Except String GoVal) := by
  constructor
  · rfl
  · intro h
    exact absurd (Except.ok.inj h) (by decide)

/-- C1 (amended): for every supported scalar slice element type except
string, the coercion trims surrounding bracket characters, splits on the
separator, trims whitespace around each element and parses it per the
element type, and an empty or whitespace-only input yields the empty slice;
for the string element type the split parts are returned verbatim (no
per-element trimming and no empty-input special case).  Conjuncts: (1)
whitespace-only input yields the empty slice for every `parseSlice` element
type; (2) surrounding brackets never change the result for any scalar
element type; (3) string-element coercion returns the bracket-trimmed split
verbatim; (4)–(6) the spec's boolean examples and an element-trimming
example. -/
theorem stringToSlice_scalar_coercion :
    (∀ elem ∈ parseSliceElemTypes, ∀ s : String, s.toList.all goIsSpace = true →
      StringToSliceHookFunc "," GoType.stringT (GoType.sliceT elem) (GoVal.str s) =
        Except.ok (emptySliceVal elem)) ∧
    (∀ elem ∈ parseSliceElemTypes ++ [SliceElem.stringE], ∀ s : String,
      StringToSliceHookFunc "," GoType.stringT (GoType.sliceT elem)
          (GoVal.str ("[" ++ s ++ "]")) =
        StringToSliceHookFunc "," GoType.stringT (GoType.sliceT elem) (GoVal.str s)) ∧
    (∀ s : String, StringToSliceHookFunc "," GoType.stringT
        (GoType.sliceT SliceElem.stringE) (GoVal.str s) =
      Except.ok (GoVal.strSlice (goSplit (goTrim s "[]") ","))) ∧
    (StringToSliceHookFunc "," GoType.stringT (GoType.sliceT SliceElem.boolE)
        (GoVal.str "true,false,true") = Except.ok (GoVal.boolSlice [true, false, true])) ∧
    (StringToSliceHookFunc "," GoType.stringT (GoType.sliceT SliceElem.boolE)
        (GoVal.str "") = Except.ok (GoVal.boolSlice [])) ∧
    (StringToSliceHookFunc "," GoType.stringT (GoType.sliceT SliceElem.intE)
        (GoVal.str " 1 , 2 ") = Except.ok (GoVal.intSlice [1, 2])) := by
  refine ⟨?_, ?_, ?_, by rfl, by rfl, by rfl⟩
  · intro elem hmem s hs
    obtain ⟨htrim, hsplit, hts⟩ := all_space_facts s hs
    fin_cases hmem <;>
      simp [StringToSliceHookFunc, stringToSliceBody, GoType.isStringKind,
        elemIsStructKind, unwrapElem, htrim, hsplit, parseSlice_whitespace_single,
        hts, emptySliceVal, Except.map]
  · intro elem hmem s
    have htr := goTrim_bracket_wrap s
    fin_cases hmem <;>
      simp [StringToSliceHookFunc, stringToSliceBody, GoType.isStringKind,
        elemIsStructKind, unwrapElem, htr]
  · intro s
    rfl

/-- C1 witness: the amended theorem applied at concrete inputs — a
whitespace-only boolean-slice coercion and a bracketed integer-slice
coercion. -/
theorem stringToSlice_scalar_coercion_witness :
    StringToSliceHookFunc "," GoType.stringT (GoType.sliceT SliceElem.boolE)
        (GoVal.str " ") = Except.ok (GoVal.boolSlice []) ∧
    StringToSliceHookFunc "," GoType.stringT (GoType.sliceT SliceElem.intE)
        (GoVal.str "[1,2]") =
      StringToSliceHookFunc "," GoType.stringT (GoType.sliceT SliceElem.intE)
        (GoVal.str "1,2") :=
  ⟨stringToSlice_scalar_coercion.1 SliceElem.boolE (by decide) " " (by decide),
   stringToSlice_scalar_coercion.2.1 SliceElem.intE (by decide) "1,2"⟩

/-- C9: each decode hook coerces only its own shape — whenever the source
type is not kind String or the destination is not kind Slice (respectively
Map), the hook returns the input data unchanged with no error. -/
theorem decodeHooks_passthrough :
    (∀ (sep : String) (fromTy toTy : GoType) (data : GoVal),
      ¬(fromTy.isStringKind = true ∧ toTy.isSliceKind = true) →
        StringToSliceHookFunc sep fromTy toTy data = Except.ok data) ∧
    (∀ (sep psep : String) (fromTy toTy : GoType) (data : GoVal),
      ¬(fromTy.isStringKind = true ∧ toTy.isMapKind = true) →
        StringToMapHookFunc sep psep fromTy toTy data = Except.ok data) := by
  constructor
  · intro sep fromTy toTy data h
    cases toTy <;> cases fromTy <;>
      simp_all [StringToSliceHookFunc, GoType.isStringKind, GoType.isSliceKind]
  · intro sep psep fromTy toTy data h
    cases toTy <;> cases fromTy <;>
      simp_all [StringToMapHookFunc, GoType.isStringKind, GoType.isMapKind]

/-- C9 witness: a non-string source (an int-kind value) and a non-slice,
non-map destination both pass through unchanged. -/
theorem decodeHooks_passthrough_witness :
    StringToSliceHookFunc "," (GoType.otherT "int") (GoType.sliceT SliceElem.intE)
        (GoVal.intVal 3) = Except.ok (GoVal.intVal 3) ∧
    StringToMapHookFunc "," "=" GoType.stringT (GoType.otherT "int")
        (GoVal.str "a=1") = Except.ok (GoVal.str "a=1") :=
  ⟨decodeHooks_passthrough.1 "," (GoType.otherT "int") (GoType.sliceT SliceElem.intE)
      (GoVal.intVal 3) (by decide),
   decodeHooks_passthrough.2 "," "=" GoType.stringT (GoType.otherT "int")
      (GoVal.str "a=1") (by decide)⟩

/-! Lemmas about first-occurrence splitting and the map hook. -/

theorem goSplitN2List_of_not_mem (a : Char) (l : List Char) (h : a ∉ l) :
    goSplitN2List [a] l = [l] := by
  induction l with
  | nil => rfl
  | cons c rest ih =>
    have hca : ¬([a].isPrefixOf (c :: rest)) = true := by
      have : ¬a = c := fun he => h (he ▸ List.mem_cons_self c rest)
      simp [List.isPrefixOf, this, beq_iff_eq]
    rw [goSplitN2List]
    rw [if_neg (fun hand => hca hand.2)]
    rw [ih (fun hm => h (List.mem_cons_of_mem c hm))]

theorem goSplitN2List_first (a : Char) (k v : List Char) (h : a ∉ k) :
    goSplitN2List [a] (k ++ a :: v) = [k, v] := by
  induction k with
  | nil =>
    rw [List.nil_append, goSplitN2List]
    rw [if_pos ⟨by simp, by simp [List.isPrefixOf]⟩]
    simp
  | cons c k ih =>
    have hca : ¬([a].isPrefixOf (c :: (k ++ a :: v))) = true := by
      have : ¬a = c := fun he => h (he ▸ List.mem_cons_self c k)
      simp [List.isPrefixOf, this, beq_iff_eq]
    rw [List.cons_append, goSplitN2List]
    rw [if_neg (fun hand => hca hand.2)]
    rw [ih (fun hm => h (List.mem_cons_of_mem c hm))]

theorem goSplitN2_of_not_mem (pair : String) (a : Char) (sep : String)
    (hs : sep.toList = [a]) (h : a ∉ pair.toList) : goSplitN2 pair sep = [pair] := by
  unfold goSplitN2
  rw [hs, goSplitN2List_of_not_mem a pair.toList h]
  simp [mk_toList]

theorem goSplitN2_append (k v : String) (a : Char) (sep : String)
    (hs : sep.toList = [a]) (h : a ∉ k.toList) : goSplitN2 (k ++ sep ++ v) sep = [k, v] := by
  unfold goSplitN2
  have hl : (k ++ sep ++ v).toList = k.toList ++ a :: v.toList := by
    rw [toList_append, toList_append, hs]
    simp
  rw [hs, hl, goSplitN2List_first a k.toList v.toList h]
  simp [mk_toList]

theorem goSplitListF_ne_nil (sep : List Char) (fuel : Nat) (l : List Char) :
    goSplitListF sep fuel l ≠ [] := by
  match fuel, l with
  | _, [] => simp [goSplitListF]
  | 0, c :: rest => simp [goSplitListF]
  | fuel + 1, c :: rest =>
    rw [goSplitListF]
    split
    · simp
    · split <;> simp

theorem goSplit_ne_nil (s sep : String) : goSplit s sep ≠ [] := by
  unfold goSplit goSplitList
  simp [goSplitListF_ne_nil]

theorem parsePair_otherM_isError (psep : String) (n : String) (pair : String) :
    ∃ e, parsePair psep (.otherM n) pair = .error e := by
  unfold parsePair
  cases hsp : goSplitN2 pair psep with
  | nil => exact ⟨_, rfl⟩
  | cons k rest =>
    cases rest with
    | nil => exact ⟨_, rfl⟩
    | cons v rest2 =>
      cases rest2 with
      | nil => exact ⟨_, rfl⟩
      | cons w rest3 => exact ⟨_, rfl⟩

/-- C3: string-to-map coercion splits each pair on only the first occurrence
of the key/value separator (so values may contain it); a pair lacking the
separator is a parse error naming the pair; a declared value type other than
int, int64 or string is a hard error whenever a pair is present; empty
(bracket-trimmed) input yields the empty map.  The final conjuncts are the
spec's own examples. -/
theorem stringToMap_spec :
    (∀ k v : String, '=' ∉ k.toList →
      parsePair "=" MapValueKind.stringM (k ++ "=" ++ v) =
        Except.ok (k, MapVal.strV v)) ∧
    (∀ (pair : String) (vk : MapValueKind), '=' ∉ pair.toList →
      parsePair "=" vk pair = Except.error ("invalid key-value pair " ++ pair)) ∧
    (∀ n s : String, goTrim s "[]" ≠ "" →
      ∃ e, StringToMapHookFunc "," "=" GoType.stringT
        (GoType.mapT MapKeyKind.stringKey (MapValueKind.otherM n)) (GoVal.str s) =
          Except.error e) ∧
    (∀ s : String, goTrim s "[]" = "" → ∀ keyKind valueKind,
      StringToMapHookFunc "," "=" GoType.stringT (GoType.mapT keyKind valueKind)
        (GoVal.str s) = Except.ok (GoVal.mapVal [])) ∧
    (StringToMapHookFunc "," "=" GoType.stringT
        (GoType.mapT MapKeyKind.stringKey MapValueKind.intM) (GoVal.str "a=1,b=2") =
      Except.ok (GoVal.mapVal [("a", MapVal.intV 1), ("b", MapVal.intV 2)])) ∧
    (StringToMapHookFunc "," "=" GoType.stringT
        (GoType.mapT MapKeyKind.stringKey MapValueKind.intM) (GoVal.str "a=1,b") =
      Except.error "invalid key-value pair b") := by
  refine ⟨?_, ?_, ?_, ?_, by rfl, by rfl⟩
  · intro k v h
    unfold parsePair
    rw [goSplitN2_append k v '=' "=" rfl h]
  · intro pair vk h
    unfold parsePair
    rw [goSplitN2_of_not_mem pair '=' "=" rfl h]
  · intro n s h
    have hne := goSplit_ne_nil (goTrim s "[]") ","
    cases hp : goSplit (goTrim s "[]") "," with
    | nil => exact absurd hp hne
    | cons p rest =>
      obtain ⟨e, he⟩ := parsePair_otherM_isError "=" n p
      refine ⟨e, ?_⟩
      simp [StringToMapHookFunc, GoType.isStringKind, h, hp, List.foldlM_cons, he,
        Except.map, Except.bind]
      rfl
  · intro s h keyKind valueKind
    simp [StringToMapHookFunc, GoType.isStringKind, h]

/-- C3 witness: the general conjuncts applied at concrete inputs — a value
containing the separator, a separator-less pair, a bool-valued map with a
pair present, and a bracket-only (empty) input. -/
theorem stringToMap_spec_witness :
    (parsePair "=" MapValueKind.stringM ("a" ++ "=" ++ "1=2") =
      Except.ok ("a", MapVal.strV "1=2")) ∧
    (parsePair "=" MapValueKind.intM "b" = Except.error "invalid key-value pair b") ∧
    (∃ e, StringToMapHookFunc "," "=" GoType.stringT
      (GoType.mapT MapKeyKind.stringKey (MapValueKind.otherM "bool"))
        (GoVal.str "a=true") = Except.error e) ∧
    (StringToMapHookFunc "," "=" GoType.stringT
        (GoType.mapT MapKeyKind.stringKey MapValueKind.intM) (GoVal.str "[]") =
      Except.ok (GoVal.mapVal [])) :=
  ⟨stringToMap_spec.1 "a" "1=2" (by decide),
   stringToMap_spec.2.1 "b" MapValueKind.intM (by decide),
   stringToMap_spec.2.2.1 "bool" "a=true" (by decide),
   stringToMap_spec.2.2.2.1 "[]" (by decide) MapKeyKind.stringKey MapValueKind.intM⟩

/-- C10: in string-to-map coercion the value is whitespace-trimmed before
numeric parsing for int and int64 maps, kept verbatim for string maps, and
the key is always kept verbatim; the concrete conjuncts evaluate `"a= 1"`
under an int map (value 1) and a string map (value `" 1"`), and a key with
surrounding whitespace. -/
theorem stringToMap_whitespace_spec :
    (∀ k v : String, '=' ∉ k.toList → ∀ i : Int, goAtoi (goTrimSpace v) = .ok i →
      parsePair "=" MapValueKind.intM (k ++ "=" ++ v) = Except.ok (k, MapVal.intV i)) ∧
    (∀ k v : String, '=' ∉ k.toList → ∀ i : Int, goParseInt64 (goTrimSpace v) = .ok i →
      parsePair "=" MapValueKind.int64M (k ++ "=" ++ v) = Except.ok (k, MapVal.int64V i)) ∧
    (∀ k v : String, '=' ∉ k.toList →
      parsePair "=" MapValueKind.stringM (k ++ "=" ++ v) = Except.ok (k, MapVal.strV v)) ∧
    (StringToMapHookFunc "," "=" GoType.stringT
        (GoType.mapT MapKeyKind.stringKey MapValueKind.intM) (GoVal.str "a= 1") =
      Except.ok (GoVal.mapVal [("a", MapVal.intV 1)])) ∧
    (StringToMapHookFunc "," "=" GoType.stringT
        (GoType.mapT MapKeyKind.stringKey MapValueKind.stringM) (GoVal.str "a= 1") =
      Except.ok (GoVal.mapVal [("a", MapVal.strV " 1")])) ∧
    (StringToMapHookFunc "," "=" GoType.stringT
        (GoType.mapT MapKeyKind.stringKey MapValueKind.intM) (GoVal.str " a = 1") =
      Except.ok (GoVal.mapVal [(" a ", MapVal.intV 1)])) := by
  refine ⟨?_, ?_, ?_, by rfl, by rfl, by rfl⟩
  · intro k v h i hi
    unfold parsePair
    rw [goSplitN2_append k v '=' "=" rfl h]
    simp [hi]
  · intro k v h i hi
    unfold parsePair
    rw [goSplitN2_append k v '=' "=" rfl h]
    simp [hi]
  · intro k v h
    unfold parsePair
    rw [goSplitN2_append k v '=' "=" rfl h]

/-- C10 witness: the trimming conjuncts applied at a key `"a"` and value
`" 1"`. -/
theorem stringToMap_whitespace_spec_witness :
    (parsePair "=" MapValueKind.intM ("a" ++ "=" ++ " 1") =
      Except.ok ("a", MapVal.intV 1)) ∧
    (parsePair "=" MapValueKind.int64M ("a" ++ "=" ++ " 1") =
      Except.ok ("a", MapVal.int64V 1)) ∧
    (parsePair "=" MapValueKind.stringM ("a" ++ "=" ++ " 1") =
      Except.ok ("a", MapVal.strV " 1")) :=
  ⟨stringToMap_whitespace_spec.1 "a" " 1" (by decide) 1 (by rfl),
   stringToMap_whitespace_spec.2.1 "a" " 1" (by decide) 1 (by rfl),
   stringToMap_whitespace_spec.2.2.1 "a" " 1" (by decide)⟩

/-! Loader theorems. -/

/-- C2: for one leaf the loaded value follows the precedence, highest to
lowest — explicitly parsed flag value, bound environment value, merged file
value, struct default (spec-modelled external store contract). -/
theorem precedence_spec {V : Type} (s : LeafSources V) :
    (∀ v, s.flagValue = some v → resolveLeaf s = v) ∧
    (s.flagValue = none → ∀ v, s.envValue = some v → resolveLeaf s = v) ∧
    (s.flagValue = none → s.envValue = none → ∀ v, s.fileValue = some v →
      resolveLeaf s = v) ∧
    (s.flagValue = none → s.envValue = none → s.fileValue = none →
      resolveLeaf s = s.structDefault) := by
  refine ⟨?_, ?_, ?_, ?_⟩ <;> (intros; simp_all [resolveLeaf])

/-- C2 witness: the spec's port example — default 8080, file 6060,
environment 9090, flag 7070 — dropping one layer at a time. -/
theorem precedence_spec_witness :
    resolveLeaf ⟨8080, some 6060, some 9090, some 7070⟩ = 7070 ∧
    resolveLeaf ⟨8080, some 6060, some 9090, none⟩ = 9090 ∧
    resolveLeaf ⟨8080, some 6060, none, none⟩ = 6060 ∧
    resolveLeaf (⟨8080, none, none, none⟩ : LeafSources Nat) = 8080 :=
  ⟨(precedence_spec _).1 7070 rfl,
   (precedence_spec _).2.1 rfl 9090 rfl,
   (precedence_spec _).2.2.1 rfl rfl 6060 rfl,
   (precedence_spec _).2.2.2 rfl rfl rfl⟩

theorem loaderInvoke_snd {T : Type} (zero : T) (stepErr : Option String)
    (env : LoaderEnv T) (confPath : String) (s : OnceState) :
    (loaderInvoke zero stepErr env confPath s).2 = onceDo stepErr s := rfl

theorem loaderInvoke_replay {T : Type} (zero : T) (stepErr : Option String)
    (env : LoaderEnv T) (confPath : String) (s : OnceState) (e : String)
    (h : (onceDo stepErr s).onceErr = some e) :
    (loaderInvoke zero stepErr env confPath s).1 = (zero, some e) := by
  show loaderBody zero env confPath (onceDo stepErr s).onceErr = (zero, some e)
  rw [h]
  rfl

theorem loaderRun_state_done {T : Type} (zero : T) (stepErr : Option String)
    (env : LoaderEnv T) :
    ∀ (paths : List String) (s : OnceState), s.done = true →
      (loaderRun zero stepErr env paths s).2 = s := by
  intro paths
  induction paths with
  | nil => intro s _; rfl
  | cons p ps ih =>
    intro s h
    show (loaderRun zero stepErr env ps (loaderInvoke zero stepErr env p s).2).2 = s
    rw [loaderInvoke_snd]
    have hd : onceDo stepErr s = s := by simp [onceDo, h]
    rw [hd]
    exact ih s h

theorem loaderRun_replay_done {T : Type} (zero : T) (stepErr : Option String)
    (env : LoaderEnv T) (e : String) :
    ∀ (paths : List String) (s : OnceState), s.done = true → s.onceErr = some e →
      ∀ r ∈ (loaderRun zero stepErr env paths s).1, r = (zero, some e) := by
  intro paths
  induction paths with
  | nil => intro s _ _ r hr; simp [loaderRun] at hr
  | cons p ps ih =>
    intro s hdone herr r hr
    have hd : onceDo stepErr s = s := by simp [onceDo, hdone]
    have h1 : (loaderInvoke zero stepErr env p s).1 = (zero, some e) :=
      loaderInvoke_replay zero stepErr env p s e (by rw [hd]; exact herr)
    have h2 : (loaderInvoke zero stepErr env p s).2 = s := by
      rw [loaderInvoke_snd, hd]
    rcases List.mem_cons.mp hr with hfirst | hrest
    · rw [hfirst, h1]
    · exact ih s hdone herr r (by rwa [h2] at hrest)

/-- C4: across every invocation of the returned loader the
flag-parse-and-binding-plan step executes exactly once; when that single
execution fails, every invocation (first and later) returns the zero value
with the same recorded error, never re-executing the step. -/
theorem loader_once_replay {T : Type} (zero : T) (stepErr : Option String)
    (env : LoaderEnv T) (paths : List String) (hne : paths ≠ []) :
    ((loaderRun zero stepErr env paths initialOnceState).2.executions = 1) ∧
    (∀ e, stepErr = some e →
      ∀ r ∈ (loaderRun zero stepErr env paths initialOnceState).1,
        r = (zero, some e)) := by
  cases paths with
  | nil => exact absurd rfl hne
  | cons p ps =>
    have hfirst2 : (loaderInvoke zero stepErr env p initialOnceState).2 =
        ⟨true, stepErr, 1⟩ := by
      rw [loaderInvoke_snd]; rfl
    constructor
    · show (loaderRun zero stepErr env ps
          (loaderInvoke zero stepErr env p initialOnceState).2).2.executions = 1
      rw [hfirst2, loaderRun_state_done zero stepErr env ps ⟨true, stepErr, 1⟩ rfl]
    · intro e he r hr
      subst he
      have h1 : (loaderInvoke zero (some e) env p initialOnceState).1 = (zero, some e) :=
        loaderInvoke_replay zero (some e) env p initialOnceState e rfl
      rcases List.mem_cons.mp hr with hfirst | hrest
      · rw [hfirst, h1]
      · refine loaderRun_replay_done zero (some e) env e ps ⟨true, some e, 1⟩ rfl rfl r ?_
        have h2 : (loaderInvoke zero (some e) env p initialOnceState).2 =
            ⟨true, some e, 1⟩ := by
          rw [loaderInvoke_snd]; rfl
        rwa [h2] at hrest

/-- C4 witness: two invocations with a failing binding step — the step count
stays at one and both calls replay the recorded error with the zero value. -/
theorem loader_once_replay_witness :
    ((loaderRun 0 (some "bind failed") trivialLoaderEnv ["", "a.yaml"]
        initialOnceState).2.executions = 1) ∧
    (∀ r ∈ (loaderRun 0 (some "bind failed") trivialLoaderEnv ["", "a.yaml"]
        initialOnceState).1, r = (0, some "bind failed")) :=
  ⟨(loader_once_replay 0 (some "bind failed") trivialLoaderEnv ["", "a.yaml"]
      (by decide)).1,
   fun r hr => (loader_once_replay 0 (some "bind failed") trivialLoaderEnv
      ["", "a.yaml"] (by decide)).2 "bind failed" rfl r hr⟩

theorem loaderBody_zero_or_ok {T : Type} (zero : T) (env : LoaderEnv T)
    (confPath : String) (onceErr : Option String) :
    (loaderBody zero env confPath onceErr).1 = zero ∨
      (loaderBody zero env confPath onceErr).2 = none := by
  unfold loaderBody
  cases onceErr with
  | some e => left; rfl
  | none =>
    cases hr : (if (if confPath = "" then env.flagConfig else confPath) ≠ ""
        then env.readInConfig (if confPath = "" then env.flagConfig else confPath)
        else none) with
    | some e => simp only [hr]; left; trivial
    | none =>
      simp only [hr]
      cases hu : env.unmarshal with
      | error e => simp only [hu]; left; trivial
      | ok conf =>
        simp only [hu]
        cases hv : env.validate conf with
        | some e => simp only [hv]; left; trivial
        | none => simp only [hv]; right; trivial

/-- C5: whenever one invocation of the loader returns a non-nil error —
whether from the one-shot gate (flag parse or binding), file reading,
unmarshalling or validation — the configuration value it returns is the zero
value of the destination type. -/
theorem loader_zero_on_error {T : Type} (zero : T) (stepErr : Option String)
    (env : LoaderEnv T) (confPath : String) (s : OnceState) :
    ∀ e, (loaderInvoke zero stepErr env confPath s).1.2 = some e →
      (loaderInvoke zero stepErr env confPath s).1.1 = zero := by
  intro e h
  have hb : (loaderInvoke zero stepErr env confPath s).1 =
      loaderBody zero env confPath (onceDo stepErr s).onceErr := rfl
  rw [hb] at h ⊢
  rcases loaderBody_zero_or_ok zero env confPath (onceDo stepErr s).onceErr with hz | hn
  · exact hz
  · rw [hn] at h
    exact absurd h (by simp)

/-- C5 witness: a failing unmarshal step returns the zero value together
with the wrapped error. -/
theorem loader_zero_on_error_witness :
    (loaderInvoke 0 none failingUnmarshalEnv "" initialOnceState).1.1 = 0 :=
  loader_zero_on_error 0 none failingUnmarshalEnv "" initialOnceState
    "failed to unmarshal config: boom" (by rfl)

/-! Conditional-validation theorems. -/

/-- C6: the wrapping stage leaves a nil result nil; on an aggregate
per-field error list it removes exactly the failures whose rule tag is the
conditional skip rule, returning nil when nothing else failed and the
filtered remainder otherwise; any non-aggregate error passes through
unchanged. -/
theorem skipNestedUnlessWrapper_spec {α : Type} (next : α → Option GoError) (v : α) :
    (next v = none → skipNestedUnlessWrapper next v = none) ∧
    (∀ l, next v = some (GoError.validationErrors l) →
      (l.filter (fun e => e.tag ≠ skipNestedUnlessTag) = [] →
        skipNestedUnlessWrapper next v = none) ∧
      (l.filter (fun e => e.tag ≠ skipNestedUnlessTag) ≠ [] →
        skipNestedUnlessWrapper next v =
          some (GoError.validationErrors
            (l.filter (fun e => e.tag ≠ skipNestedUnlessTag))))) ∧
    (∀ m, next v = some (GoError.other m) →
      skipNestedUnlessWrapper next v = some (GoError.other m)) := by
  refine ⟨?_, ?_, ?_⟩
  · intro h
    simp [skipNestedUnlessWrapper, h]
  · intro l h
    constructor
    · intro hf
      simp only [skipNestedUnlessWrapper, h]
      rw [if_pos hf]
    · intro hf
      simp only [skipNestedUnlessWrapper, h]
      rw [if_neg hf]
  · intro m h
    simp [skipNestedUnlessWrapper, h]

/-- C6 witness: an aggregate holding only skip failures becomes nil, one
holding a skip failure and a genuine failure keeps only the latter, and a
non-aggregate error passes through. -/
theorem skipNestedUnlessWrapper_spec_witness :
    skipNestedUnlessWrapper
        (fun _ : Unit => some (GoError.validationErrors
          [⟨"Local", skipNestedUnlessTag⟩])) () = none ∧
    skipNestedUnlessWrapper
        (fun _ : Unit => some (GoError.validationErrors
          [⟨"Local", skipNestedUnlessTag⟩, ⟨"Name", "required"⟩])) () =
      some (GoError.validationErrors [⟨"Name", "required"⟩]) ∧
    skipNestedUnlessWrapper (fun _ : Unit => some (GoError.other "io")) () =
      some (GoError.other "io") := by
  refine ⟨((skipNestedUnlessWrapper_spec _ ()).2.1 _ rfl).1 (by decide), ?_,
    (skipNestedUnlessWrapper_spec _ ()).2.2 "io" rfl⟩
  have h := ((skipNestedUnlessWrapper_spec
      (fun _ : Unit => some (GoError.validationErrors
        [⟨"Local", skipNestedUnlessTag⟩, ⟨"Name", "required"⟩])) ()).2.1 _ rfl).2
    (by decide)
  exact h

theorem checkParamPairs_eq_all (parent : String → Option GoValue) :
    ∀ l : List String, checkParamPairs parent l =
      (toPairs l).all (fun p => requireCheckFieldValue parent p.1 p.2 false)
  | [] => rfl
  | [_] => rfl
  | a :: b :: rest => by
    simp [checkParamPairs, toPairs, List.all_cons, checkParamPairs_eq_all parent rest]

/-- C7: when the skip_nested_unless parameter string tokenizes to an odd
number of tokens, the rule raises an immediate configuration error (a panic)
whose message names the validated field; with an even token count it returns
a verdict that is success exactly when every (sibling name, expected value)
pair matches on the parent; an unresolved sibling name makes its pair's
condition unmet. -/
theorem skipNestedUnless_spec :
    (∀ (parent : String → Option GoValue) (fieldName param : String),
      (parseOneOfParam2 param).length % 2 = 1 →
        skipNestedUnlessImpl parent fieldName param =
          RuleOutcome.panicked
            ("Bad param number for skip_nested_unless " ++ fieldName)) ∧
    (∀ (parent : String → Option GoValue) (fieldName param : String),
      (parseOneOfParam2 param).length % 2 = 0 →
        skipNestedUnlessImpl parent fieldName param =
          RuleOutcome.verdict ((toPairs (parseOneOfParam2 param)).all
            (fun p => requireCheckFieldValue parent p.1 p.2 false))) ∧
    (∀ (parent : String → Option GoValue) (name value : String),
      parent name = none → requireCheckFieldValue parent name value false = false) := by
  refine ⟨?_, ?_, ?_⟩
  · intro parent fieldName param h
    unfold skipNestedUnlessImpl
    rw [if_pos (by omega)]
  · intro parent fieldName param h
    unfold skipNestedUnlessImpl
    rw [if_neg (by omega), checkParamPairs_eq_all]
  · intro parent name value h
    simp [requireCheckFieldValue, h]

/-- C7 witness: the single token `"Type"` panics naming the field `Local`;
the pair `"Type local"` succeeds against a parent whose `Type` is `"local"`;
a lookup that resolves nothing leaves the pair unmet. -/
theorem skipNestedUnless_spec_witness :
    skipNestedUnlessImpl
        (fun n => if n = "Type" then some (GoValue.strV "local") else none)
        "Local" "Type" =
      RuleOutcome.panicked "Bad param number for skip_nested_unless Local" ∧
    skipNestedUnlessImpl
        (fun n => if n = "Type" then some (GoValue.strV "local") else none)
        "Local" "Type local" = RuleOutcome.verdict true ∧
    requireCheckFieldValue (fun _ => none) "Missing" "x" false = false :=
  ⟨skipNestedUnless_spec.1 _ "Local" "Type" (by rfl),
   skipNestedUnless_spec.2.1 _ "Local" "Type local" (by rfl),
   skipNestedUnless_spec.2.2 (fun _ => none) "Missing" "x" rfl⟩

/-! Schema-walker theorems. -/

theorem walkFields_append (opts : InitOptions) :
    ∀ (l1 : FieldList) (l2 : FieldList) (pk : String),
      walkFields opts (l1.append l2) pk =
        match walkFields opts l1 pk with
        | .error e => .error e
        | .ok b1 =>
          match walkFields opts l2 pk with
          | .error e => .error e
          | .ok b2 => .ok (b1 ++ b2)
  | .nil, l2, pk => by
    cases h2 : walkFields opts l2 pk <;>
      simp [FieldList.append, walkFields, h2]
  | .cons n t u ty r, l2, pk => by
    have ih := walkFields_append opts r l2 pk
    show (match walkField opts n t u ty pk with
      | Except.error e => Except.error e
      | Except.ok bs =>
        match walkFields opts (r.append l2) pk with
        | Except.error e => Except.error e
        | Except.ok bs2 => Except.ok (bs ++ bs2)) = _
    rw [ih]
    cases hw : walkField opts n t u ty pk with
    | error e => simp [walkFields, hw]
    | ok bs =>
      cases hr : walkFields opts r pk with
      | error e => simp [walkFields, hw, hr]
      | ok b1 =>
        cases h2 : walkFields opts l2 pk with
        | error e => simp [walkFields, hw, hr, h2]
        | ok b2 => simp [walkFields, hw, hr, h2, List.append_assoc]

theorem walkField_squash (opts : InitOptions) (name : String) (us : Option String)
    (inner : FieldList) (pk : String) (h : isExported name = true) :
    walkField opts name (some ",squash") us (.structT inner) pk =
      walkFields opts inner pk := by
  have ht : goTrimSpace ",squash" = ",squash" := rfl
  simp [walkField, h, ht]

/-- C8: a field tagged `,squash` contributes its children under exactly the
parent's own path prefix, so the walk of a struct with the squashed field
equals the walk with the children spliced directly into the parent — every
child's store key, flag identifier and environment identifier (the whole
binding plan) coincide; a squash target that is not a struct, or that is the
timestamp type, makes the walk (and hence initialization, which then returns
no loader) fail with an error. -/
theorem initializeRecursive_squash_spec :
    (∀ (opts : InitOptions) (pk : String) (before inner after : FieldList)
        (name : String) (us : Option String), isExported name = true →
      walkFields opts
          (before.append (.cons name (some ",squash") us (.structT inner) after)) pk =
        walkFields opts (before.append (inner.append after)) pk) ∧
    (∀ (opts : InitOptions) (pk name : String) (us : Option String) (ty : FieldTy),
      isExported name = true → isPtrTy ty = false → isStructTy ty = false →
        walkField opts name (some ",squash") us ty pk =
          .error ("unsupported squash type: " ++ ty.goTypeName)) ∧
    (InitializeBindings defaultInitOptions
        (.structT (.cons "Bad" (some ",squash") none .intT .nil)) =
      .error "unsupported squash type: int") ∧
    (InitializeBindings defaultInitOptions
        (.structT (.cons "T" (some ",squash") none .timeT .nil)) =
      .error "unsupported squash type: time.Time") := by
  refine ⟨?_, ?_, by rfl, by rfl⟩
  · intro opts pk before inner after name us h
    have hsq : walkFields opts
        (FieldList.cons name (some ",squash") us (.structT inner) after) pk =
        walkFields opts (inner.append after) pk := by
      show (match walkField opts name (some ",squash") us (.structT inner) pk with
        | Except.error e => Except.error e
        | Except.ok bs =>
          match walkFields opts after pk with
          | Except.error e => Except.error e
          | Except.ok bs2 => Except.ok (bs ++ bs2)) = _
      rw [walkField_squash opts name us inner pk h,
        walkFields_append opts inner after pk]
    rw [walkFields_append opts before _ pk, walkFields_append opts before _ pk, hsq]
  · intro opts pk name us ty hexp hptr hstruct
    have ht : goTrimSpace ",squash" = ",squash" := rfl
    cases ty
    case ptrT inner => simp [isPtrTy] at hptr
    case structT fields => simp [isStructTy] at hstruct
    all_goals simp [walkField, hexp, ht, FieldTy.goTypeName]

/-- C8 witness: the transparency conjunct applied at a concrete schema — a
squashed `Inner` struct binds its `Port` child exactly as a directly
declared `Port` — and the error conjunct applied at an int squash target. -/
theorem initializeRecursive_squash_spec_witness :
    walkFields defaultInitOptions
        (FieldList.cons "Name" none none .stringT
          (FieldList.cons "Inner" (some ",squash") none
            (.structT (FieldList.cons "Port" none none .intT .nil)) .nil)) "" =
      walkFields defaultInitOptions
        (FieldList.cons "Name" none none .stringT
          (FieldList.cons "Port" none none .intT .nil)) "" ∧
    walkField defaultInitOptions "Bad" (some ",squash") none .intT "" =
      .error ("unsupported squash type: " ++ FieldTy.intT.goTypeName) :=
  ⟨initializeRecursive_squash_spec.1 defaultInitOptions ""
      (FieldList.cons "Name" none none .stringT .nil)
      (FieldList.cons "Port" none none .intT .nil) .nil "Inner" none (by decide),
   initializeRecursive_squash_spec.2.1 defaultInitOptions "" "Bad" none .intT
      (by decide) (by decide) (by decide)⟩

end Confx
